import Mathlib

/-!
BatchCommandDialog: selection and synchronisation logic.

A shallow embedding of `src/BatchCommandDialog.cpp`.  The dialog is a record of
the values its widgets hold; every event handler is a function on that record.
The effect registry (`EffectManager`) and the batch pipeline (`BatchCommands`)
are passed in as records of functions.
-/

/-- The string type of the dialog's text fields. -/
abbrev wxString := String

/-- Identifier of a plug-in in the effect registry; empty when nothing was found. -/
abbrev PluginID := String

/-- One catalog entry, `std::tuple` of user-facing name, internal identifier and
category (`std::get<0>`, `std::get<1>`, `std::get<2>`). -/
abbrev CommandName := wxString × wxString × wxString

/-- Modelled from the spec: `wxString` belongs to the wxWidgets library, outside
the source file; the spec calls its stripping whitespace trimming.  White space
is what `wxString::Trim` tests for: a character below 127 that C `isspace`
accepts (space, `\t`, `\n`, `\v`, `\f`, `\r`). -/
def wxSafeIsspace (ch : Char) : Bool :=
  decide (ch.toNat < 127) && (ch.toNat == 32 || (decide (9 ≤ ch.toNat) && decide (ch.toNat ≤ 13)))

/-- Modelled from the spec: `wxString::Trim(bFromRight)` of the wxWidgets
library, outside the source file; it removes white space from the right end when
`bFromRight`, from the left end otherwise. -/
def wxString.Trim (s : wxString) (bFromRight : Bool) : wxString :=
  if bFromRight then String.mk (s.data.rdropWhile wxSafeIsspace)
  else String.mk (s.data.dropWhile wxSafeIsspace)

/-- The argument of `wxString::Strip`. -/
inductive stripType where
  | leading
  | trailing
  | both
  deriving DecidableEq, Repr

/-- Modelled from the spec: `wxString::Strip(w)` of the wxWidgets library,
outside the source file; a copy trimmed on the left when `w` has the leading bit
and on the right when it has the trailing bit. -/
def wxString.Strip (s : wxString) (w : stripType) : wxString :=
  let s1 := if w = stripType.leading ∨ w = stripType.both then s.Trim false else s
  if w = stripType.trailing ∨ w = stripType.both then s1.Trim true else s1

/-- Modelled from the spec: `IteratorRange::index_if` is declared outside the
source file; the catalog search yields the position of the first element that
satisfies the test, and `-1` when `find_if` reaches the end. -/
def index_if {α : Type} (r : List α) (f : α → Bool) : Int :=
  let iter := r.findIdx f
  if iter = r.length then -1 else (iter : Int)

/-- The part of `EffectManager` the dialog calls. -/
structure EffectManager where
  GetEffectByIdentifier : wxString → PluginID
  HasPresets : PluginID → Bool
  GetDefaultPreset : PluginID → wxString

/-- The part of `BatchCommands` the dialog calls.  The two prompts stand for the
modal editors: given the command and the current parameters they return the
string the user ended with. -/
structure BatchCommands where
  GetCurrentParamsFor : wxString → wxString
  PromptForParamsFor : wxString → wxString → wxString
  PromptForPresetFor : wxString → wxString → wxString

/-- The dialog: the catalog it was populated with and the value held by each
widget and member.  `mChoices` is the selected row of the single-selection list
control, `mEditParams` and `mUsePreset` are the enabled flags of the two buttons,
`mCommand`, `mParameters` and `mDetails` are the values of the text controls. -/
structure BatchCommandDialog where
  mCommandNames : List CommandName
  mChoices : Option Nat
  mCommand : wxString
  mParameters : wxString
  mDetails : wxString
  mEditParams : Bool
  mUsePreset : Bool
  mInternalCommandName : wxString
  mSelectedCommand : wxString
  mSelectedParameters : wxString
  deriving DecidableEq, Repr

namespace BatchCommandDialog

/-- The dialog as the constructor leaves it (`PopulateOrExchange` followed by
`PopulateCommandList`): empty text boxes, both buttons disabled, nothing
selected, and the catalog returned by `BatchCommands::GetAllCommands`. -/
def Populate (allCommands : List CommandName) : BatchCommandDialog :=
  { mCommandNames := allCommands
    mChoices := none
    mCommand := ""
    mParameters := ""
    mDetails := ""
    mEditParams := false
    mUsePreset := false
    mInternalCommandName := ""
    mSelectedCommand := ""
    mSelectedParameters := "" }

/-- `OnOk`: stores the committed pair. -/
def OnOk (d : BatchCommandDialog) : BatchCommandDialog :=
  { d with
    mSelectedCommand := d.mInternalCommandName.Strip stripType.both
    mSelectedParameters := d.mParameters.Strip stripType.trailing }

/-- `OnItemSelected` for a list event carrying row `index`.  Indexing the catalog
out of range is undefined in the source; the model yields `none` there. -/
def OnItemSelected (em : EffectManager) (bc : BatchCommands) (d : BatchCommandDialog)
    (index : Nat) : Option BatchCommandDialog :=
  match d.mCommandNames[index]? with
  | none => none
  | some command =>
    let ID := em.GetEffectByIdentifier command.2.1
    let d1 := { d with mEditParams := !ID.isEmpty, mUsePreset := em.HasPresets ID }
    if command.1 = d1.mCommand then some d1
    else
      let d2 := { d1 with mCommand := command.1, mInternalCommandName := command.2.1 }
      let params := bc.GetCurrentParamsFor d2.mInternalCommandName
      let params := if params.isEmpty then em.GetDefaultPreset ID else params
      some { d2 with
        mDetails := d2.mInternalCommandName ++ "\r\n" ++ command.2.2
        mParameters := params }

/-- `OnEditParams`: the parameter editor's answer, right-trimmed, replaces the
parameter text. -/
def OnEditParams (bc : BatchCommands) (d : BatchCommandDialog) : BatchCommandDialog :=
  let command := d.mInternalCommandName
  let params := d.mParameters
  let params := (bc.PromptForParamsFor command params).Trim true
  { d with mParameters := params }

/-- `OnUsePreset`: the preset picker's answer, right-trimmed, replaces the
parameter text. -/
def OnUsePreset (bc : BatchCommands) (d : BatchCommandDialog) : BatchCommandDialog :=
  let command := d.mInternalCommandName
  let params := d.mParameters
  let preset := (bc.PromptForPresetFor command params).Trim true
  { d with mParameters := preset }

/-- `SetCommandAndParams`.  In the branch `item ≥ 0` the position comes from
`index_if`, hence lies inside the catalog, and the default of `getD` is never
taken (`index_if_getD` below). -/
def SetCommandAndParams (em : EffectManager) (d : BatchCommandDialog)
    (Command Params : wxString) : BatchCommandDialog :=
  let item := index_if d.mCommandNames (fun name => decide (Command = name.2.1))
  let d1 := { d with mParameters := Params }
  let d2 := { d1 with mInternalCommandName := Command }
  if item < 0 then { d2 with mCommand := Command }
  else
    let name := d2.mCommandNames.getD item.toNat ("", "", "")
    let d3 := { d2 with mCommand := name.1 }
    let d4 := { d3 with mDetails := name.2.1 ++ "\r\n" ++ name.2.2 }
    let d5 := { d4 with mChoices := some item.toNat }
    let ID := em.GetEffectByIdentifier Command
    { d5 with mEditParams := !ID.isEmpty, mUsePreset := em.HasPresets ID }

end BatchCommandDialog

/-- The catalog of the two-entry scenario. -/
def scenarioCatalog : List CommandName :=
  [("Normalize", "Normalize", "Volume and Compression"), ("Echo", "Echo", "Delay and Reverb")]

/-- A registry that knows `Echo` (with presets) and `Normalize` (without). -/
def scenarioEM : EffectManager :=
  { GetEffectByIdentifier := fun ident =>
      if ident = "Echo" then "Effect_Echo" else if ident = "Normalize" then "Effect_Normalize" else ""
    HasPresets := fun ID => decide (ID = "Effect_Echo")
    GetDefaultPreset := fun ID => if ID = "Effect_Echo" then "Delay=1 Decay=0.5" else "" }

/-- A pipeline that remembers parameters for `Normalize` only. -/
def scenarioBC : BatchCommands :=
  { GetCurrentParamsFor := fun ident => if ident = "Normalize" then "Level=-1" else ""
    PromptForParamsFor := fun _ params => params ++ " edited  "
    PromptForPresetFor := fun _ _ => "User Preset:Mine " }

/-- The wording of the commit contract for the identifier: `t` is `s` with
leading and trailing white space removed and nothing else changed. -/
def TrimmedBoth (s t : wxString) : Prop :=
  ∃ l r : List Char, s.data = l ++ t.data ++ r ∧
    (∀ c ∈ l, wxSafeIsspace c = true) ∧ (∀ c ∈ r, wxSafeIsspace c = true) ∧
    (∀ c, t.data.head? = some c → wxSafeIsspace c = false) ∧
    (∀ c, t.data.getLast? = some c → wxSafeIsspace c = false)

/-- The wording of the commit contract for the parameters: `t` is `s` with
trailing white space removed and nothing else changed. -/
def TrimmedRight (s t : wxString) : Prop :=
  ∃ r : List Char, s.data = t.data ++ r ∧
    (∀ c ∈ r, wxSafeIsspace c = true) ∧
    (∀ c, t.data.getLast? = some c → wxSafeIsspace c = false)

/-- The two buttons agree with what the registry answers for `ident`: editing is
enabled exactly when `ident` resolves to a non-empty plug-in id, and presets
exactly when the registry reports presets for that id. -/
def EnablementFor (em : EffectManager) (ident : wxString) (d : BatchCommandDialog) : Prop :=
  d.mEditParams = decide (em.GetEffectByIdentifier ident ≠ "") ∧
  d.mUsePreset = em.HasPresets (em.GetEffectByIdentifier ident)

/-- The operations that act on the dialog: the list's selection event, the
programmatic seed and the two buttons. -/
inductive Operation where
  | onSelectionChanged (index : Nat)
  | setCommandAndParams (Command Params : wxString)
  | editParameters
  | usePreset

/-- Runs the handler the event table binds to an operation. -/
def BatchCommandDialog.perform (em : EffectManager) (bc : BatchCommands)
    (d : BatchCommandDialog) : Operation → Option BatchCommandDialog
  | Operation.onSelectionChanged index => d.OnItemSelected em bc index
  | Operation.setCommandAndParams Command Params => some (d.SetCommandAndParams em Command Params)
  | Operation.editParameters => some (d.OnEditParams bc)
  | Operation.usePreset => some (d.OnUsePreset bc)

/-- An operation is a seed whose identifier no catalog entry of `d` carries. -/
def Operation.isUnknownSeed (d : BatchCommandDialog) : Operation → Prop
  | Operation.setCommandAndParams Command _ => ∀ name ∈ d.mCommandNames, name.2.1 ≠ Command
  | _ => False

/-- The dialogs reachable from the freshly built one by selection events, the
two buttons, and the list control moving its own highlight; the registry and the
pipeline may answer differently at every step. -/
inductive ReachableBySelection (allCommands : List CommandName) : BatchCommandDialog → Prop
  | initial : ReachableBySelection allCommands (BatchCommandDialog.Populate allCommands)
  | select {d d1 : BatchCommandDialog} (em : EffectManager) (bc : BatchCommands) (index : Nat) :
      ReachableBySelection allCommands d → d.OnItemSelected em bc index = some d1 →
      ReachableBySelection allCommands d1
  | edit {d : BatchCommandDialog} (bc : BatchCommands) :
      ReachableBySelection allCommands d → ReachableBySelection allCommands (d.OnEditParams bc)
  | preset {d : BatchCommandDialog} (bc : BatchCommands) :
      ReachableBySelection allCommands d → ReachableBySelection allCommands (d.OnUsePreset bc)
  | highlight {d : BatchCommandDialog} (row : Option Nat) :
      ReachableBySelection allCommands d →
      ReachableBySelection allCommands { d with mChoices := row }

/-- The scenario dialog after the user picked row 0, `Normalize`. -/
def scenarioNormalizeSelected : BatchCommandDialog :=
  { mCommandNames := scenarioCatalog
    mChoices := some 0
    mCommand := "Normalize"
    mParameters := "Level=-1"
    mDetails := "Normalize\r\nVolume and Compression"
    mEditParams := true
    mUsePreset := false
    mInternalCommandName := "Normalize"
    mSelectedCommand := ""
    mSelectedParameters := "" }

/-- The scenario dialog after the user picked row 1, `Echo`. -/
def scenarioEchoSelected : BatchCommandDialog :=
  { mCommandNames := scenarioCatalog
    mChoices := some 1
    mCommand := "Echo"
    mParameters := "Delay=1 Decay=0.5"
    mDetails := "Echo\r\nDelay and Reverb"
    mEditParams := true
    mUsePreset := true
    mInternalCommandName := "Echo"
    mSelectedCommand := ""
    mSelectedParameters := "" }

/-- A catalog in which two entries share one user-facing name. -/
def sharedNameCatalog : List CommandName :=
  [("Amplify", "Amplify", "Volume and Compression"), ("Amplify", "AmplifyOld", "Legacy")]

/-- The shared-name dialog after the user picked row 0. -/
def sharedNameFirstSelected : BatchCommandDialog :=
  { mCommandNames := sharedNameCatalog
    mChoices := some 0
    mCommand := "Amplify"
    mParameters := ""
    mDetails := "Amplify\r\nVolume and Compression"
    mEditParams := false
    mUsePreset := false
    mInternalCommandName := "Amplify"
    mSelectedCommand := ""
    mSelectedParameters := "" }

/-! ## White-space stripping -/

theorem rdropWhile_append_rtakeWhile {α : Type} (p : α → Bool) (l : List α) :
    l.rdropWhile p ++ l.rtakeWhile p = l := by
  simp only [List.rdropWhile, List.rtakeWhile, ← List.reverse_append,
    List.takeWhile_append_dropWhile, List.reverse_reverse]

theorem getLast?_rdropWhile_not {α : Type} (p : α → Bool) (l : List α) (c : α)
    (h : (l.rdropWhile p).getLast? = some c) : p c = false := by
  have hne : l.rdropWhile p ≠ [] := by
    intro h0
    simp [h0] at h
  have hlast := List.rdropWhile_last_not p l hne
  rw [List.getLast?_eq_getLast _ hne] at h
  have hc : (l.rdropWhile p).getLast hne = c := Option.some.inj h
  rw [hc] at hlast
  simpa using hlast

theorem head?_rdropWhile_dropWhile_not {α : Type} (p : α → Bool) (l : List α) (c : α)
    (h : ((l.dropWhile p).rdropWhile p).head? = some c) : p c = false := by
  have hpre : (l.dropWhile p).rdropWhile p <+: l.dropWhile p := List.rdropWhile_prefix p _
  obtain ⟨t, ht⟩ := hpre
  have hhead : (l.dropWhile p).head? = some c := by
    rw [← ht]
    cases hm : (l.dropWhile p).rdropWhile p with
    | nil => simp [hm] at h
    | cons a as =>
      rw [hm] at h
      simpa using h
  have hnot := List.head?_dropWhile_not p l
  rw [hhead] at hnot
  exact hnot

theorem Strip_both_data (s : wxString) :
    (s.Strip stripType.both).data = (s.data.dropWhile wxSafeIsspace).rdropWhile wxSafeIsspace := by
  simp [wxString.Strip, wxString.Trim]

theorem Strip_trailing_data (s : wxString) :
    (s.Strip stripType.trailing).data = s.data.rdropWhile wxSafeIsspace := by
  simp [wxString.Strip, wxString.Trim]

theorem Strip_both_TrimmedBoth (s : wxString) : TrimmedBoth s (s.Strip stripType.both) := by
  refine ⟨s.data.takeWhile wxSafeIsspace,
    (s.data.dropWhile wxSafeIsspace).rtakeWhile wxSafeIsspace, ?_, ?_, ?_, ?_, ?_⟩
  · rw [Strip_both_data, List.append_assoc, rdropWhile_append_rtakeWhile,
      List.takeWhile_append_dropWhile]
  · intro c hc
    exact List.mem_takeWhile_imp hc
  · intro c hc
    exact List.mem_rtakeWhile_imp hc
  · intro c hc
    rw [Strip_both_data] at hc
    exact head?_rdropWhile_dropWhile_not _ _ _ hc
  · intro c hc
    rw [Strip_both_data] at hc
    exact getLast?_rdropWhile_not _ _ _ hc

theorem Strip_trailing_TrimmedRight (s : wxString) :
    TrimmedRight s (s.Strip stripType.trailing) := by
  refine ⟨s.data.rtakeWhile wxSafeIsspace, ?_, ?_, ?_⟩
  · rw [Strip_trailing_data, rdropWhile_append_rtakeWhile]
  · intro c hc
    exact List.mem_rtakeWhile_imp hc
  · intro c hc
    rw [Strip_trailing_data] at hc
    exact getLast?_rdropWhile_not _ _ _ hc

/-! ## Commit -/

theorem SetCommandAndParams_mInternalCommandName (em : EffectManager) (d : BatchCommandDialog)
    (Command Params : wxString) :
    (d.SetCommandAndParams em Command Params).mInternalCommandName = Command := by
  unfold BatchCommandDialog.SetCommandAndParams
  simp only
  split <;> rfl

theorem SetCommandAndParams_mParameters (em : EffectManager) (d : BatchCommandDialog)
    (Command Params : wxString) :
    (d.SetCommandAndParams em Command Params).mParameters = Params := by
  unfold BatchCommandDialog.SetCommandAndParams
  simp only
  split <;> rfl

/-- C1: `SetCommandAndParams Command Params` followed at once by `OnOk` commits
`Command` with leading and trailing white space removed and `Params` with only
trailing white space removed, whatever the catalog and the prior state, also for
a `Command` absent from the catalog. -/
theorem C1_SetCommandAndParams_OnOk_roundtrip (em : EffectManager) (d : BatchCommandDialog)
    (Command Params : wxString) :
    ((d.SetCommandAndParams em Command Params).OnOk.mSelectedCommand
        = Command.Strip stripType.both ∧
      (d.SetCommandAndParams em Command Params).OnOk.mSelectedParameters
        = Params.Strip stripType.trailing) ∧
    TrimmedBoth Command (d.SetCommandAndParams em Command Params).OnOk.mSelectedCommand ∧
    TrimmedRight Params (d.SetCommandAndParams em Command Params).OnOk.mSelectedParameters := by
  have h1 : (d.SetCommandAndParams em Command Params).OnOk.mSelectedCommand
      = Command.Strip stripType.both := by
    simp [BatchCommandDialog.OnOk, SetCommandAndParams_mInternalCommandName]
  have h2 : (d.SetCommandAndParams em Command Params).OnOk.mSelectedParameters
      = Params.Strip stripType.trailing := by
    simp [BatchCommandDialog.OnOk, SetCommandAndParams_mParameters]
  refine ⟨⟨h1, h2⟩, ?_, ?_⟩
  · rw [h1]
    exact Strip_both_TrimmedBoth Command
  · rw [h2]
    exact Strip_trailing_TrimmedRight Params

/-! ## Catalog search -/

theorem index_if_neg_iff {α : Type} (r : List α) (f : α → Bool) :
    index_if r f < 0 ↔ ∀ x ∈ r, f x = false := by
  unfold index_if
  simp only
  split
  · rename_i h
    constructor
    · intro _
      exact List.findIdx_eq_length.mp h
    · intro _
      decide
  · rename_i h
    constructor
    · intro hlt
      exact absurd hlt (by omega)
    · intro hall
      exact absurd (List.findIdx_eq_length.mpr hall) h

theorem index_if_found {α : Type} (r : List α) (f : α → Bool) (h : ∃ x ∈ r, f x = true) :
    index_if r f = ((r.findIdx f : Nat) : Int) ∧ r.findIdx f < r.length := by
  have hlt : r.findIdx f < r.length := List.findIdx_lt_length_of_exists h
  refine ⟨?_, hlt⟩
  unfold index_if
  simp only
  rw [if_neg (by omega)]

/-- In the found branch the position returned by `index_if` is inside the list,
so `getD` reads an element there, the first one that passes the test. -/
theorem index_if_getD {α : Type} (r : List α) (f : α → Bool) (dflt : α)
    (h : ∃ x ∈ r, f x = true) :
    ∃ x, r[(index_if r f).toNat]? = some x ∧ r.getD (index_if r f).toNat dflt = x ∧
      f x = true ∧ (index_if r f).toNat = r.findIdx f := by
  obtain ⟨heq, hlt⟩ := index_if_found r f h
  have hnat : (index_if r f).toNat = r.findIdx f := by
    rw [heq]
    exact Int.toNat_ofNat _
  refine ⟨r[r.findIdx f], ?_, ?_, ?_, hnat⟩
  · rw [hnat]
    exact List.getElem?_eq_getElem hlt
  · rw [hnat, List.getD_eq_getElem?_getD, List.getElem?_eq_getElem hlt]
    rfl
  · exact List.findIdx_getElem

/-! ## The programmatic seed -/

theorem SetCommandAndParams_not_found (em : EffectManager) (d : BatchCommandDialog)
    (Command Params : wxString) (h : ∀ name ∈ d.mCommandNames, name.2.1 ≠ Command) :
    d.SetCommandAndParams em Command Params =
      { d with mParameters := Params, mInternalCommandName := Command, mCommand := Command } := by
  have hneg : index_if d.mCommandNames (fun name => decide (Command = name.2.1)) < 0 := by
    rw [index_if_neg_iff]
    intro name hname
    have hne := h name hname
    simp only [decide_eq_false_iff_not]
    exact fun heq => hne heq.symm
  unfold BatchCommandDialog.SetCommandAndParams
  simp only
  rw [if_pos hneg]

theorem SetCommandAndParams_found (em : EffectManager) (d : BatchCommandDialog)
    (Command Params : wxString) (h : ∃ name ∈ d.mCommandNames, name.2.1 = Command) :
    ∃ (i : Nat) (name : CommandName),
      d.mCommandNames[i]? = some name ∧ name.2.1 = Command ∧
      (∀ j, j < i → ∀ other, d.mCommandNames[j]? = some other → other.2.1 ≠ Command) ∧
      d.SetCommandAndParams em Command Params =
        { d with
          mParameters := Params
          mInternalCommandName := Command
          mCommand := name.1
          mDetails := name.2.1 ++ "\r\n" ++ name.2.2
          mChoices := some i
          mEditParams := !(em.GetEffectByIdentifier Command).isEmpty
          mUsePreset := em.HasPresets (em.GetEffectByIdentifier Command) } := by
  have hex : ∃ x ∈ d.mCommandNames, (fun name : CommandName => decide (Command = name.2.1)) x = true := by
    obtain ⟨name, hmem, heq⟩ := h
    exact ⟨name, hmem, by simp [heq]⟩
  obtain ⟨name, hget, hgetD, hf, hnat⟩ :=
    index_if_getD d.mCommandNames (fun name => decide (Command = name.2.1)) ("", "", "") hex
  have hnotneg : ¬ index_if d.mCommandNames (fun name => decide (Command = name.2.1)) < 0 := by
    rw [index_if_neg_iff]
    intro hall
    obtain ⟨x, hx, hfx⟩ := hex
    have hfalse := hall x hx
    simp only [hfalse] at hfx
    exact Bool.false_ne_true hfx
  refine ⟨_, name, hget, ?_, ?_, ?_⟩
  · simp only [decide_eq_true_eq] at hf
    exact hf.symm
  · intro j hj other hother heq
    rw [hnat] at hj
    have hjlt : j < d.mCommandNames.length := by
      have hle : List.findIdx (fun name : CommandName => decide (Command = name.2.1))
          d.mCommandNames ≤ d.mCommandNames.length := List.findIdx_le_length _
      omega
    have hnot := List.not_of_lt_findIdx hj
    rw [List.getElem?_eq_getElem hjlt] at hother
    have hoth : d.mCommandNames[j] = other := Option.some.inj hother
    simp only [List.get_eq_getElem, hoth, decide_eq_true_eq] at hnot
    simp only [decide_eq_false_iff_not] at hnot
    exact hnot heq.symm
  · unfold BatchCommandDialog.SetCommandAndParams
    simp only
    rw [if_neg hnotneg, hgetD]

/-! ## The selection event -/

theorem OnItemSelected_same_name (em : EffectManager) (bc : BatchCommands)
    (d : BatchCommandDialog) (index : Nat) (command : CommandName)
    (hi : d.mCommandNames[index]? = some command) (hsame : command.1 = d.mCommand) :
    d.OnItemSelected em bc index =
      some { d with
        mEditParams := !(em.GetEffectByIdentifier command.2.1).isEmpty
        mUsePreset := em.HasPresets (em.GetEffectByIdentifier command.2.1) } := by
  unfold BatchCommandDialog.OnItemSelected
  rw [hi]
  simp only
  rw [if_pos hsame]

theorem OnItemSelected_new_name (em : EffectManager) (bc : BatchCommands)
    (d : BatchCommandDialog) (index : Nat) (command : CommandName)
    (hi : d.mCommandNames[index]? = some command) (hnew : command.1 ≠ d.mCommand) :
    d.OnItemSelected em bc index =
      some { d with
        mEditParams := !(em.GetEffectByIdentifier command.2.1).isEmpty
        mUsePreset := em.HasPresets (em.GetEffectByIdentifier command.2.1)
        mCommand := command.1
        mInternalCommandName := command.2.1
        mDetails := command.2.1 ++ "\r\n" ++ command.2.2
        mParameters :=
          if (bc.GetCurrentParamsFor command.2.1).isEmpty
          then em.GetDefaultPreset (em.GetEffectByIdentifier command.2.1)
          else bc.GetCurrentParamsFor command.2.1 } := by
  unfold BatchCommandDialog.OnItemSelected
  rw [hi]
  simp only
  rw [if_neg hnew]

theorem not_isEmpty_eq_decide (s : String) : (!s.isEmpty) = decide (s ≠ "") := by
  by_cases h : s = ""
  · subst h
    decide
  · have hne : s.isEmpty = false := by
      rw [Bool.eq_false_iff]
      intro hemp
      exact h ((String.isEmpty_iff s).mp hemp)
    simp [hne, h]

/-! ## Claims about the selection event -/

/-- C2, as stated, fails.  In the two-entry scenario with row 0 previously
selected, the event for row 1 writes the detail text with the separator
carriage return + line feed, which is not the identifier, one newline, the
category.  And with two rows that share a user-facing name, the event for the
other row leaves the detail text of the first row in place. -/
theorem C2_counterexample_detail_text :
    (scenarioNormalizeSelected.mCommandNames[1]? = some ("Echo", "Echo", "Delay and Reverb") ∧
      scenarioNormalizeSelected.mChoices = some 0 ∧
      (scenarioNormalizeSelected.OnItemSelected scenarioEM scenarioBC 1).map
          (fun d => (d.mCommand, d.mDetails)) = some ("Echo", "Echo\r\nDelay and Reverb") ∧
      "Echo\r\nDelay and Reverb" ≠ "Echo" ++ "\n" ++ "Delay and Reverb") ∧
    (sharedNameFirstSelected.mCommandNames[1]? = some ("Amplify", "AmplifyOld", "Legacy") ∧
      sharedNameFirstSelected.mChoices = some 0 ∧
      (sharedNameFirstSelected.OnItemSelected scenarioEM scenarioBC 1).map
          (fun d => (d.mCommand, d.mDetails)) = some ("Amplify", "Amplify\r\nVolume and Compression") ∧
      "Amplify\r\nVolume and Compression" ≠ "AmplifyOld" ++ "\r\n" ++ "Legacy" ∧
      "Amplify\r\nVolume and Compression" ≠ "AmplifyOld" ++ "\n" ++ "Legacy") := by
  decide

/-- C2, amended: for a valid row whose user-facing name differs from the name on
display, the selection event sets the displayed command to the entry's
user-facing name and the detail text to the identifier, then carriage return and
line feed, then the category. -/
theorem C2_OnItemSelected_display_and_details (em : EffectManager) (bc : BatchCommands)
    (d : BatchCommandDialog) (index : Nat) (command : CommandName)
    (hi : d.mCommandNames[index]? = some command) (hnew : command.1 ≠ d.mCommand) :
    ∃ d1, d.OnItemSelected em bc index = some d1 ∧ d1.mCommand = command.1 ∧
      d1.mDetails = command.2.1 ++ "\r\n" ++ command.2.2 := by
  rw [OnItemSelected_new_name em bc d index command hi hnew]
  exact ⟨_, rfl, rfl, rfl⟩

theorem C2_OnItemSelected_display_and_details_witness :
    ∃ d1, scenarioNormalizeSelected.OnItemSelected scenarioEM scenarioBC 1 = some d1 ∧
      d1.mCommand = "Echo" ∧ d1.mDetails = "Echo" ++ "\r\n" ++ "Delay and Reverb" :=
  C2_OnItemSelected_display_and_details scenarioEM scenarioBC scenarioNormalizeSelected 1
    ("Echo", "Echo", "Delay and Reverb") (by decide) (by decide)

/-- C3: after the selection event for any valid row, short-circuit or not, the
two buttons agree with the registry's answer for that row's identifier; after a
seed whose identifier is in the catalog they agree with the registry's answer for
the seeded identifier. -/
theorem C3_enablement_postcondition (em : EffectManager) (bc : BatchCommands)
    (d : BatchCommandDialog) :
    (∀ (index : Nat) (command : CommandName), d.mCommandNames[index]? = some command →
      ∃ d1, d.OnItemSelected em bc index = some d1 ∧ EnablementFor em command.2.1 d1) ∧
    (∀ Command Params : wxString, (∃ name ∈ d.mCommandNames, name.2.1 = Command) →
      EnablementFor em Command (d.SetCommandAndParams em Command Params)) := by
  constructor
  · intro index command hi
    by_cases hsame : command.1 = d.mCommand
    · rw [OnItemSelected_same_name em bc d index command hi hsame]
      exact ⟨_, rfl, not_isEmpty_eq_decide _, rfl⟩
    · rw [OnItemSelected_new_name em bc d index command hi hsame]
      exact ⟨_, rfl, not_isEmpty_eq_decide _, rfl⟩
  · intro Command Params hfound
    obtain ⟨i, name, _, _, _, hset⟩ := SetCommandAndParams_found em d Command Params hfound
    rw [hset]
    exact ⟨not_isEmpty_eq_decide _, rfl⟩

theorem C3_enablement_postcondition_witness :
    (∃ d1, scenarioNormalizeSelected.OnItemSelected scenarioEM scenarioBC 1 = some d1 ∧
      EnablementFor scenarioEM "Echo" d1) ∧
    EnablementFor scenarioEM "Normalize"
      (scenarioEchoSelected.SetCommandAndParams scenarioEM "Normalize" "Level=-3") :=
  ⟨(C3_enablement_postcondition scenarioEM scenarioBC scenarioNormalizeSelected).1 1
      ("Echo", "Echo", "Delay and Reverb") (by decide),
    (C3_enablement_postcondition scenarioEM scenarioBC scenarioEchoSelected).2 "Normalize"
      "Level=-3" ⟨("Normalize", "Normalize", "Volume and Compression"), by decide, rfl⟩⟩

/-- C6: for a valid row, the second of two consecutive selection events finds the
row's user-facing name already on display, leaves the parameter text, the
internal command name, the displayed name and the detail text as the first event
left them whatever the registry and the pipeline answer by then, and with the
same answers leaves the whole dialog unchanged. -/
theorem C6_OnItemSelected_idempotent (em em2 : EffectManager) (bc bc2 : BatchCommands)
    (d : BatchCommandDialog) (index : Nat) (hi : index < d.mCommandNames.length) :
    ∃ d1, d.OnItemSelected em bc index = some d1 ∧
      d.mCommandNames[index]?.map (fun command => command.1) = some d1.mCommand ∧
      (∃ d2, d1.OnItemSelected em2 bc2 index = some d2 ∧
        d2.mParameters = d1.mParameters ∧
        d2.mInternalCommandName = d1.mInternalCommandName ∧
        d2.mCommand = d1.mCommand ∧ d2.mDetails = d1.mDetails) ∧
      d1.OnItemSelected em bc index = some d1 := by
  have hget : d.mCommandNames[index]? = some d.mCommandNames[index] :=
    List.getElem?_eq_getElem hi
  by_cases hsame : (d.mCommandNames[index]).1 = d.mCommand
  · rw [OnItemSelected_same_name em bc d index _ hget hsame]
    refine ⟨_, rfl, ?_, ⟨_, OnItemSelected_same_name em2 bc2 _ index _ hget hsame,
      rfl, rfl, rfl, rfl⟩, ?_⟩
    · rw [hget]
      exact congrArg some hsame
    · exact OnItemSelected_same_name em bc _ index _ hget hsame
  · rw [OnItemSelected_new_name em bc d index _ hget hsame]
    refine ⟨_, rfl, ?_, ⟨_, OnItemSelected_same_name em2 bc2 _ index _ hget rfl,
      rfl, rfl, rfl, rfl⟩, ?_⟩
    · rw [hget]
      rfl
    · exact OnItemSelected_same_name em bc _ index _ hget rfl

theorem C6_OnItemSelected_idempotent_witness :
    ∃ d1, scenarioNormalizeSelected.OnItemSelected scenarioEM scenarioBC 1 = some d1 ∧
      scenarioNormalizeSelected.mCommandNames[1]?.map (fun command => command.1)
        = some d1.mCommand ∧
      (∃ d2, d1.OnItemSelected scenarioEM scenarioBC 1 = some d2 ∧
        d2.mParameters = d1.mParameters ∧
        d2.mInternalCommandName = d1.mInternalCommandName ∧
        d2.mCommand = d1.mCommand ∧ d2.mDetails = d1.mDetails) ∧
      d1.OnItemSelected scenarioEM scenarioBC 1 = some d1 :=
  C6_OnItemSelected_idempotent scenarioEM scenarioEM scenarioBC scenarioBC
    scenarioNormalizeSelected 1 (by decide)

/-- C7: for a valid row whose user-facing name differs from the name on display,
the selection event sets the parameter text to the parameters the pipeline
stores for the row's identifier when those are non-empty, and otherwise to the
registry's default preset for the plug-in id the identifier resolves to. -/
theorem C7_OnItemSelected_parameter_priority (em : EffectManager) (bc : BatchCommands)
    (d : BatchCommandDialog) (index : Nat) (command : CommandName)
    (hi : d.mCommandNames[index]? = some command) (hnew : command.1 ≠ d.mCommand) :
    ∃ d1, d.OnItemSelected em bc index = some d1 ∧
      (bc.GetCurrentParamsFor command.2.1 ≠ "" →
        d1.mParameters = bc.GetCurrentParamsFor command.2.1) ∧
      (bc.GetCurrentParamsFor command.2.1 = "" →
        d1.mParameters = em.GetDefaultPreset (em.GetEffectByIdentifier command.2.1)) := by
  rw [OnItemSelected_new_name em bc d index command hi hnew]
  refine ⟨_, rfl, ?_, ?_⟩
  · intro hstored
    have hne : (bc.GetCurrentParamsFor command.2.1).isEmpty = false := by
      rw [Bool.eq_false_iff]
      intro hemp
      exact hstored ((String.isEmpty_iff _).mp hemp)
    simp only [hne]
    rfl
  · intro hempty
    have he : (bc.GetCurrentParamsFor command.2.1).isEmpty = true :=
      (String.isEmpty_iff _).mpr hempty
    simp only [he]
    rfl

theorem C7_OnItemSelected_parameter_priority_witness :
    ((∃ d1, scenarioEchoSelected.OnItemSelected scenarioEM scenarioBC 0 = some d1 ∧
      (scenarioBC.GetCurrentParamsFor "Normalize" ≠ "" →
        d1.mParameters = scenarioBC.GetCurrentParamsFor "Normalize") ∧
      (scenarioBC.GetCurrentParamsFor "Normalize" = "" →
        d1.mParameters
          = scenarioEM.GetDefaultPreset (scenarioEM.GetEffectByIdentifier "Normalize"))) ∧
      scenarioBC.GetCurrentParamsFor "Normalize" = "Level=-1") ∧
    ((∃ d1, scenarioNormalizeSelected.OnItemSelected scenarioEM scenarioBC 1 = some d1 ∧
      (scenarioBC.GetCurrentParamsFor "Echo" ≠ "" →
        d1.mParameters = scenarioBC.GetCurrentParamsFor "Echo") ∧
      (scenarioBC.GetCurrentParamsFor "Echo" = "" →
        d1.mParameters
          = scenarioEM.GetDefaultPreset (scenarioEM.GetEffectByIdentifier "Echo"))) ∧
      scenarioBC.GetCurrentParamsFor "Echo" = "" ∧
      scenarioEM.GetDefaultPreset (scenarioEM.GetEffectByIdentifier "Echo")
        = "Delay=1 Decay=0.5") :=
  ⟨⟨C7_OnItemSelected_parameter_priority scenarioEM scenarioBC scenarioEchoSelected 0
      ("Normalize", "Normalize", "Volume and Compression") (by decide) (by decide),
    by decide⟩,
   ⟨C7_OnItemSelected_parameter_priority scenarioEM scenarioBC scenarioNormalizeSelected 1
      ("Echo", "Echo", "Delay and Reverb") (by decide) (by decide),
    by decide, by decide⟩⟩

/-! ## Claims about the programmatic seed -/

/-- C5: seeding twice with the same identifier and parameters gives the dialog
that seeding once gives, field for field. -/
theorem C5_SetCommandAndParams_idempotent (em : EffectManager) (d : BatchCommandDialog)
    (Command Params : wxString) :
    (d.SetCommandAndParams em Command Params).SetCommandAndParams em Command Params
      = d.SetCommandAndParams em Command Params := by
  unfold BatchCommandDialog.SetCommandAndParams
  simp only
  split <;> rfl

/-- C8: a seed whose identifier no catalog entry carries puts the identifier
verbatim on display, stores it as the internal command name, stores the
parameters, and leaves the list selection, the detail text and both buttons as
they were; the commit that follows yields the identifier stripped on both sides
and the parameters stripped on the right, with no catalog check. -/
theorem C8_SetCommandAndParams_unknown_identifier (em : EffectManager) (d : BatchCommandDialog)
    (Command Params : wxString) (hnone : ∀ name ∈ d.mCommandNames, name.2.1 ≠ Command) :
    (d.SetCommandAndParams em Command Params).mCommand = Command ∧
    (d.SetCommandAndParams em Command Params).mInternalCommandName = Command ∧
    (d.SetCommandAndParams em Command Params).mParameters = Params ∧
    (d.SetCommandAndParams em Command Params).mChoices = d.mChoices ∧
    (d.SetCommandAndParams em Command Params).mDetails = d.mDetails ∧
    (d.SetCommandAndParams em Command Params).mEditParams = d.mEditParams ∧
    (d.SetCommandAndParams em Command Params).mUsePreset = d.mUsePreset ∧
    (d.SetCommandAndParams em Command Params).OnOk.mSelectedCommand
      = Command.Strip stripType.both ∧
    (d.SetCommandAndParams em Command Params).OnOk.mSelectedParameters
      = Params.Strip stripType.trailing := by
  rw [SetCommandAndParams_not_found em d Command Params hnone]
  exact ⟨rfl, rfl, rfl, rfl, rfl, rfl, rfl, rfl, rfl⟩

theorem C8_SetCommandAndParams_unknown_identifier_witness :
    (scenarioEchoSelected.SetCommandAndParams scenarioEM "StereoToMono" "").mCommand
      = "StereoToMono" ∧
    (scenarioEchoSelected.SetCommandAndParams scenarioEM "StereoToMono" "").mInternalCommandName
      = "StereoToMono" ∧
    (scenarioEchoSelected.SetCommandAndParams scenarioEM "StereoToMono" "").mParameters = "" ∧
    (scenarioEchoSelected.SetCommandAndParams scenarioEM "StereoToMono" "").mChoices
      = scenarioEchoSelected.mChoices ∧
    (scenarioEchoSelected.SetCommandAndParams scenarioEM "StereoToMono" "").mDetails
      = scenarioEchoSelected.mDetails ∧
    (scenarioEchoSelected.SetCommandAndParams scenarioEM "StereoToMono" "").mEditParams
      = scenarioEchoSelected.mEditParams ∧
    (scenarioEchoSelected.SetCommandAndParams scenarioEM "StereoToMono" "").mUsePreset
      = scenarioEchoSelected.mUsePreset ∧
    (scenarioEchoSelected.SetCommandAndParams scenarioEM "StereoToMono" "").OnOk.mSelectedCommand
      = wxString.Strip "StereoToMono" stripType.both ∧
    (scenarioEchoSelected.SetCommandAndParams scenarioEM "StereoToMono" "").OnOk.mSelectedParameters
      = wxString.Strip "" stripType.trailing :=
  C8_SetCommandAndParams_unknown_identifier scenarioEM scenarioEchoSelected "StereoToMono" ""
    (by decide)

/-- C9: when the seeded identifier is in the catalog, the seed highlights the
first row carrying it, and the selection event for that row, whatever the
registry and the pipeline answer, leaves the parameter text equal to the seeded
parameters and the internal command name equal to the seeded identifier. -/
theorem C9_seed_survives_selection_event (em em2 : EffectManager) (bc2 : BatchCommands)
    (d : BatchCommandDialog) (Command Params : wxString)
    (hfound : ∃ name ∈ d.mCommandNames, name.2.1 = Command) :
    ∃ (i : Nat) (name : CommandName),
      d.mCommandNames[i]? = some name ∧ name.2.1 = Command ∧
      (∀ j, j < i → ∀ other, d.mCommandNames[j]? = some other → other.2.1 ≠ Command) ∧
      (d.SetCommandAndParams em Command Params).mChoices = some i ∧
      ∃ d2, (d.SetCommandAndParams em Command Params).OnItemSelected em2 bc2 i = some d2 ∧
        d2.mParameters = Params ∧ d2.mInternalCommandName = Command := by
  obtain ⟨i, name, hget, heq, hfirst, hset⟩ :=
    SetCommandAndParams_found em d Command Params hfound
  refine ⟨i, name, hget, heq, hfirst, ?_, ?_⟩
  · rw [hset]
  · rw [hset]
    exact ⟨_, OnItemSelected_same_name em2 bc2 _ i name hget rfl, rfl, rfl⟩

theorem C9_seed_survives_selection_event_witness :
    ∃ (i : Nat) (name : CommandName),
      sharedNameCatalog[i]? = some name ∧ name.2.1 = "AmplifyOld" ∧
      (∀ j, j < i → ∀ other, sharedNameCatalog[j]? = some other → other.2.1 ≠ "AmplifyOld") ∧
      (sharedNameFirstSelected.SetCommandAndParams scenarioEM "AmplifyOld" "Ratio=2").mChoices
        = some i ∧
      ∃ d2, (sharedNameFirstSelected.SetCommandAndParams scenarioEM "AmplifyOld"
            "Ratio=2").OnItemSelected scenarioEM scenarioBC i = some d2 ∧
        d2.mParameters = "Ratio=2" ∧ d2.mInternalCommandName = "AmplifyOld" :=
  C9_seed_survives_selection_event scenarioEM scenarioEM scenarioBC sharedNameFirstSelected
    "AmplifyOld" "Ratio=2" ⟨("Amplify", "AmplifyOld", "Legacy"), by decide, rfl⟩

/-! ## Enablement after a change of the internal command name -/

/-- C4, as stated, fails.  With `Echo` selected (both buttons enabled), seeding
the identifier `StereoToMono`, which is not in the catalog and resolves to no
plug-in, changes the internal command name and leaves both buttons enabled. -/
theorem C4_counterexample_unknown_seed :
    scenarioEchoSelected.perform scenarioEM scenarioBC
        (Operation.setCommandAndParams "StereoToMono" "")
      = some (scenarioEchoSelected.SetCommandAndParams scenarioEM "StereoToMono" "") ∧
    (scenarioEchoSelected.SetCommandAndParams scenarioEM "StereoToMono" "").mInternalCommandName
      = "StereoToMono" ∧
    scenarioEchoSelected.mInternalCommandName = "Echo" ∧
    scenarioEM.GetEffectByIdentifier "StereoToMono" = "" ∧
    scenarioEM.HasPresets "" = false ∧
    (scenarioEchoSelected.SetCommandAndParams scenarioEM "StereoToMono" "").mEditParams = true ∧
    (scenarioEchoSelected.SetCommandAndParams scenarioEM "StereoToMono" "").mUsePreset = true ∧
    ¬ EnablementFor scenarioEM "StereoToMono"
        (scenarioEchoSelected.SetCommandAndParams scenarioEM "StereoToMono" "") := by
  refine ⟨rfl, by decide, by decide, by decide, by decide, by decide, by decide, ?_⟩
  unfold EnablementFor
  decide

/-- C4, amended: every operation other than a seed with an identifier absent from
the catalog that changes the internal command name leaves both buttons in
agreement with the registry's answer for the new internal command name; a seed
with an identifier absent from the catalog leaves both buttons as they were. -/
theorem C4_enablement_follows_internal_name (em : EffectManager) (bc : BatchCommands)
    (d d1 : BatchCommandDialog) (op : Operation) (hop : d.perform em bc op = some d1) :
    (¬ op.isUnknownSeed d → d1.mInternalCommandName ≠ d.mInternalCommandName →
      EnablementFor em d1.mInternalCommandName d1) ∧
    (op.isUnknownSeed d → d1.mEditParams = d.mEditParams ∧ d1.mUsePreset = d.mUsePreset) := by
  cases op with
  | onSelectionChanged index =>
    refine ⟨fun _ hchg => ?_, fun hseed => absurd hseed (by simp [Operation.isUnknownSeed])⟩
    simp only [BatchCommandDialog.perform] at hop
    cases hget : d.mCommandNames[index]? with
    | none => simp [BatchCommandDialog.OnItemSelected, hget] at hop
    | some command =>
      by_cases hsame : command.1 = d.mCommand
      · rw [OnItemSelected_same_name em bc d index command hget hsame] at hop
        have hd1 := Option.some.inj hop
        subst hd1
        exact absurd rfl hchg
      · rw [OnItemSelected_new_name em bc d index command hget hsame] at hop
        have hd1 := Option.some.inj hop
        subst hd1
        exact ⟨not_isEmpty_eq_decide _, rfl⟩
  | setCommandAndParams Command Params =>
    simp only [BatchCommandDialog.perform] at hop
    have hd1 := Option.some.inj hop
    subst hd1
    constructor
    · intro hknown _
      have hfound : ∃ name ∈ d.mCommandNames, name.2.1 = Command := by
        by_contra hno
        apply hknown
        intro name hmem heq
        exact hno ⟨name, hmem, heq⟩
      obtain ⟨i, name, _, _, _, hset⟩ := SetCommandAndParams_found em d Command Params hfound
      rw [hset]
      exact ⟨not_isEmpty_eq_decide _, rfl⟩
    · intro hseed
      rw [SetCommandAndParams_not_found em d Command Params hseed]
      exact ⟨rfl, rfl⟩
  | editParameters =>
    refine ⟨fun _ hchg => ?_, fun hseed => absurd hseed (by simp [Operation.isUnknownSeed])⟩
    simp only [BatchCommandDialog.perform] at hop
    have hd1 := Option.some.inj hop
    subst hd1
    exact absurd rfl hchg
  | usePreset =>
    refine ⟨fun _ hchg => ?_, fun hseed => absurd hseed (by simp [Operation.isUnknownSeed])⟩
    simp only [BatchCommandDialog.perform] at hop
    have hd1 := Option.some.inj hop
    subst hd1
    exact absurd rfl hchg

theorem C4_enablement_follows_internal_name_witness :
    EnablementFor scenarioEM scenarioEchoSelected.mInternalCommandName scenarioEchoSelected ∧
    ((scenarioEchoSelected.SetCommandAndParams scenarioEM "StereoToMono" "").mEditParams
        = scenarioEchoSelected.mEditParams ∧
      (scenarioEchoSelected.SetCommandAndParams scenarioEM "StereoToMono" "").mUsePreset
        = scenarioEchoSelected.mUsePreset) :=
  ⟨(C4_enablement_follows_internal_name scenarioEM scenarioBC
      { scenarioNormalizeSelected with mChoices := some 1 } scenarioEchoSelected
      (Operation.onSelectionChanged 1) (by decide)).1
      (by simp [Operation.isUnknownSeed]) (by decide),
    (C4_enablement_follows_internal_name scenarioEM scenarioBC scenarioEchoSelected
      (scenarioEchoSelected.SetCommandAndParams scenarioEM "StereoToMono" "")
      (Operation.setCommandAndParams "StereoToMono" "") rfl).2
      (by unfold Operation.isUnknownSeed; decide)⟩

/-! ## The committed identifier tracks the selected row -/

/-- Along selection events and the two buttons the catalog stays the one the
dialog was built with, and the displayed name and the internal command name are
either both empty or those of one catalog entry. -/
theorem ReachableBySelection_tracks (allCommands : List CommandName) (d : BatchCommandDialog)
    (hreach : ReachableBySelection allCommands d) :
    d.mCommandNames = allCommands ∧
    ((d.mCommand = "" ∧ d.mInternalCommandName = "") ∨
      ∃ name ∈ allCommands, d.mCommand = name.1 ∧ d.mInternalCommandName = name.2.1) := by
  induction hreach with
  | initial => exact ⟨rfl, Or.inl ⟨rfl, rfl⟩⟩
  | @select d0 d1 em bc index _ hsel ih =>
    obtain ⟨hcat, hinv⟩ := ih
    cases hget : d0.mCommandNames[index]? with
    | none => simp [BatchCommandDialog.OnItemSelected, hget] at hsel
    | some command =>
      by_cases hsame : command.1 = d0.mCommand
      · rw [OnItemSelected_same_name em bc d0 index command hget hsame] at hsel
        have hd1 := Option.some.inj hsel
        subst hd1
        exact ⟨hcat, hinv⟩
      · rw [OnItemSelected_new_name em bc d0 index command hget hsame] at hsel
        have hd1 := Option.some.inj hsel
        subst hd1
        refine ⟨hcat, Or.inr ⟨command, ?_, rfl, rfl⟩⟩
        rw [← hcat]
        exact List.getElem?_mem hget
  | edit bc _ ih => exact ih
  | preset bc _ ih => exact ih
  | highlight row _ ih => exact ih

/-- C10: in a catalog whose user-facing names are pairwise distinct and
non-empty, from any dialog reached from the freshly built one by selection
events and the two buttons, the selection event for a valid row leaves the
internal command name equal to that row's identifier and the displayed name equal
to its user-facing name, and the commit yields that identifier stripped. -/
theorem C10_committed_identifier_tracks_row (allCommands : List CommandName)
    (hdistinct : (allCommands.map (fun name => name.1)).Nodup)
    (hnonempty : ∀ name ∈ allCommands, name.1 ≠ "")
    (d : BatchCommandDialog) (hreach : ReachableBySelection allCommands d)
    (em : EffectManager) (bc : BatchCommands) (index : Nat) (command : CommandName)
    (hi : allCommands[index]? = some command) :
    ∃ d1, d.OnItemSelected em bc index = some d1 ∧
      d1.mInternalCommandName = command.2.1 ∧ d1.mCommand = command.1 ∧
      d1.OnOk.mSelectedCommand = wxString.Strip command.2.1 stripType.both := by
  obtain ⟨hcat, hinv⟩ := ReachableBySelection_tracks allCommands d hreach
  have hmem : command ∈ allCommands := List.getElem?_mem hi
  have hget : d.mCommandNames[index]? = some command := by
    rw [hcat]
    exact hi
  by_cases hsame : command.1 = d.mCommand
  · rw [OnItemSelected_same_name em bc d index command hget hsame]
    have hint : d.mInternalCommandName = command.2.1 := by
      rcases hinv with ⟨hempty, _⟩ | ⟨name, hname, hshown, hinternal⟩
      · exact absurd (hsame.trans hempty) (hnonempty command hmem)
      · have hnames : name.1 = command.1 := (hsame.trans hshown).symm
        have heq : name = command := List.inj_on_of_nodup_map hdistinct hname hmem hnames
        rw [hinternal, heq]
    refine ⟨_, rfl, hint, hsame.symm, ?_⟩
    simp only [BatchCommandDialog.OnOk, hint]
  · rw [OnItemSelected_new_name em bc d index command hget hsame]
    exact ⟨_, rfl, rfl, rfl, rfl⟩

theorem C10_committed_identifier_tracks_row_witness :
    ∃ d1, (scenarioEchoSelected.OnUsePreset scenarioBC).OnItemSelected scenarioEM scenarioBC 0
        = some d1 ∧
      d1.mInternalCommandName = "Normalize" ∧ d1.mCommand = "Normalize" ∧
      d1.OnOk.mSelectedCommand = wxString.Strip "Normalize" stripType.both :=
  C10_committed_identifier_tracks_row scenarioCatalog (by decide) (by decide)
    (scenarioEchoSelected.OnUsePreset scenarioBC)
    (ReachableBySelection.preset scenarioBC
      (ReachableBySelection.select scenarioEM scenarioBC 1
        (ReachableBySelection.highlight (some 1) ReachableBySelection.initial)
        (by decide)))
    scenarioEM scenarioBC 0 ("Normalize", "Normalize", "Volume and Compression") (by decide)

/-! ## The concrete dialogs used above arise from the freshly built dialog -/

theorem scenarioNormalizeSelected_reached :
    BatchCommandDialog.OnItemSelected scenarioEM scenarioBC
      { BatchCommandDialog.Populate scenarioCatalog with mChoices := some 0 } 0
      = some scenarioNormalizeSelected := by
  decide

theorem scenarioEchoSelected_reached :
    BatchCommandDialog.OnItemSelected scenarioEM scenarioBC
      { BatchCommandDialog.Populate scenarioCatalog with mChoices := some 1 } 1
      = some scenarioEchoSelected := by
  decide

theorem sharedNameFirstSelected_reached :
    BatchCommandDialog.OnItemSelected scenarioEM scenarioBC
      { BatchCommandDialog.Populate sharedNameCatalog with mChoices := some 0 } 0
      = some sharedNameFirstSelected := by
  decide
